import Mathlib

/-!
Shallow embedding of the portfolio manager (src/main.rs).

The f64 arithmetic of the program is modelled exactly over `ℚ`, matching the
real-number reading of the computations in the spec; a separate IEEE-style value
type `F64` with infinities and NaN is used where float-specific behaviour
matters (division by a zero quote and the `Option` result of the sort
comparator). `i64` and `i32` are modelled by `ℤ`, and the Rust `as i64`
float-to-integer cast by truncation toward zero saturating at the i64
range.
-/

namespace RPM

/-- Structure `Stock` from src/main.rs. -/
structure Stock where
  symbol : String
  quote : ℚ
  number_of_shares : ℤ
  target_allocation : ℚ
  is_usd : Bool
deriving DecidableEq

/-- Structure `Data` from src/main.rs: the portfolio snapshot. -/
structure Data where
  stocks : List Stock
  annual_expenses : ℚ
  target_retirement_age : ℤ
  current_age : ℤ
  target_growth_rate : ℚ
  usd_to_cad_exchange_rate : ℚ
  expected_contribution : ℚ
deriving DecidableEq

/-- Structure `CalculationResult` from src/main.rs. -/
structure CalculationResult where
  symbol : String
  new_number_of_shares : ℤ
  cost : ℚ
deriving DecidableEq

/-- Truncation of a rational toward zero. -/
def ratTrunc (q : ℚ) : ℤ := if 0 ≤ q then ⌊q⌋ else ⌈q⌉

/-- The Rust `as i64` cast of an f64: truncation toward zero, saturating at
the i64 range. -/
def f64toI64 (q : ℚ) : ℤ := max (-(2 ^ 63)) (min (2 ^ 63 - 1) (ratTrunc q))

/-- Function `calc_value_of_stock` (src/main.rs lines 46-52). -/
def calc_value_of_stock (stock : Stock) (usd_to_cad_exchange_rate : ℚ) : ℚ :=
  if stock.is_usd then
    stock.quote * (stock.number_of_shares : ℚ) * usd_to_cad_exchange_rate
  else
    stock.quote * (stock.number_of_shares : ℚ)

/-- Function `calc_portfolio_val` (src/main.rs lines 54-56). -/
def calc_portfolio_val (stocks : List Stock) (usd_to_cad_exchange_rate : ℚ) : ℚ :=
  (stocks.map (fun stock => calc_value_of_stock stock usd_to_cad_exchange_rate)).sum

/-- Function `determine_result_based_on_contrib_amount` (src/main.rs lines 77-84). -/
def determine_result_based_on_contrib_amount (stock : Stock)
    (current_contribution_amount : ℚ) : CalculationResult :=
  let shares_to_buy := current_contribution_amount / stock.quote
  { symbol := stock.symbol
    new_number_of_shares := f64toI64 shares_to_buy
    cost := shares_to_buy * stock.quote }

/-- Function `calc_number_of_shares_to_buy` (src/main.rs lines 58-75). -/
def calc_number_of_shares_to_buy (stock : Stock) (total_value : ℚ)
    (current_contribution_amount : ℚ) : Option CalculationResult :=
  let target_allocation_as_decimal := stock.target_allocation / 100
  let new_number_of_shares := target_allocation_as_decimal * total_value / stock.quote
  let shares_to_buy := new_number_of_shares - (stock.number_of_shares : ℚ)
  let cost := shares_to_buy * stock.quote
  if shares_to_buy > 0 ∧ cost < current_contribution_amount then
    some { symbol := stock.symbol
           new_number_of_shares := f64toI64 shares_to_buy
           cost := shares_to_buy * stock.quote }
  else if shares_to_buy > 0 then
    some (determine_result_based_on_contrib_amount stock current_contribution_amount)
  else
    none

/-- One step of a stable insertion sort on cost, modelling
`results.sort_by(|a, b| a.partial_cmp(b).unwrap())` (src/main.rs line 90):
over `ℚ` costs the comparator is a total order, and the Rust `sort_by` is a
stable sort (insertion sort on short slices). A later element passes all
elements of equal cost, preserving input order among ties. -/
def insertByCost (r : CalculationResult) :
    List CalculationResult → List CalculationResult
  | [] => [r]
  | s :: rest => if r.cost < s.cost then r :: s :: rest else s :: insertByCost r rest

/-- Stable sort of the collected recommendations by ascending cost. -/
def sortByCost (l : List CalculationResult) : List CalculationResult :=
  l.foldl (fun acc r => insertByCost r acc) []

/-- The recommendations collected against the initial contribution budget
and sorted by cost (src/main.rs lines 87-90). -/
def firstPassInput (data : Data) : List CalculationResult :=
  let total_value := calc_portfolio_val data.stocks data.usd_to_cad_exchange_rate
  sortByCost (data.stocks.filterMap fun stock =>
    calc_number_of_shares_to_buy stock total_value data.expected_contribution)

/-- The first reporting loop of `print_where_to_contribute`
(src/main.rs lines 93-97): a reported recommendation consumes its cost,
an unaffordable one is skipped (`continue`) leaving the budget unchanged.
Returns the reported list (in order) and the remaining budget. -/
def pass1 : List CalculationResult → ℚ → List CalculationResult × ℚ
  | [], budget => ([], budget)
  | r :: rest, budget =>
    if r.cost > budget then pass1 rest budget
    else
      let p := pass1 rest (budget - r.cost)
      (r :: p.1, p.2)

/-- The second ("extra contribution cash") loop of
`print_where_to_contribute` (src/main.rs lines 100-105): each holding is
visited in snapshot order; with nonpositive budget the iteration
`continue`s, otherwise it reports an affordable-only recommendation and
deducts its cost. -/
def pass2 : List Stock → ℚ → List CalculationResult × ℚ
  | [], budget => ([], budget)
  | stock :: rest, budget =>
    if budget ≤ 0 then pass2 rest budget
    else
      let r := determine_result_based_on_contrib_amount stock budget
      let p := pass2 rest (budget - r.cost)
      (r :: p.1, p.2)

/-- The observable output of `print_where_to_contribute`
(src/main.rs lines 86-106). -/
structure ContributeOutput where
  first_pass : List CalculationResult
  budget_after_first : ℚ
  second_pass : List CalculationResult
  final_budget : ℚ
deriving DecidableEq

/-- Function `print_where_to_contribute` (src/main.rs lines 86-106), exposing the
two reported sequences and the budget after each loop. -/
def print_where_to_contribute (data : Data) : ContributeOutput :=
  let p1 := pass1 (firstPassInput data) data.expected_contribution
  let p2 := pass2 data.stocks p1.2
  { first_pass := p1.1
    budget_after_first := p1.2
    second_pass := p2.1
    final_budget := p2.2 }

/-- The quantities printed by `print_how_close_to_retirement`
(src/main.rs lines 108-120). -/
structure RetirementOutput where
  new_value : ℚ
  years_to_pass : ℤ
  target_retirement_portfolio_value : ℚ
  fully_grown_portfolio : ℚ
  percentage_of_retirement_value : ℚ
deriving DecidableEq

/-- Function `print_how_close_to_retirement` (src/main.rs lines 108-120). -/
def print_how_close_to_retirement (data : Data) : RetirementOutput :=
  let total_value := calc_portfolio_val data.stocks data.usd_to_cad_exchange_rate
  let new_value := total_value + data.expected_contribution
  let years_to_pass := data.target_retirement_age - data.current_age
  let multiplier := 1 + data.target_growth_rate / 100
  let retirement_rule : ℚ := 4
  let target_retirement_portfolio_value := data.annual_expenses / (retirement_rule / 100)
  let fully_grown_portfolio := new_value * multiplier ^ years_to_pass
  { new_value := new_value
    years_to_pass := years_to_pass
    target_retirement_portfolio_value := target_retirement_portfolio_value
    fully_grown_portfolio := fully_grown_portfolio
    percentage_of_retirement_value :=
      fully_grown_portfolio / target_retirement_portfolio_value * 100 }

/-- Sum of the reported costs of a recommendation list. -/
def costSum (l : List CalculationResult) : ℚ := (l.map (fun r => r.cost)).sum

/-- An IEEE-style f64 value: an exact finite rational, an infinity, or
NaN. Rounding of finite values is not modelled (the finite f64 values of
the source are carried exactly), which suffices for the sign, infinity
and NaN propagation that the comparisons of the program depend on. The negative
zero is identified with zero. -/
inductive F64 where
  | fin (q : ℚ)
  | inf
  | ninf
  | nan
deriving DecidableEq

namespace F64

/-- IEEE negation. -/
def neg : F64 → F64
  | fin q => fin (-q)
  | inf => ninf
  | ninf => inf
  | nan => nan

/-- IEEE addition (∞ + -∞ = NaN; NaN propagates). -/
def add : F64 → F64 → F64
  | nan, _ => nan
  | _, nan => nan
  | fin a, fin b => fin (a + b)
  | inf, ninf => nan
  | ninf, inf => nan
  | inf, _ => inf
  | ninf, _ => ninf
  | fin _, inf => inf
  | fin _, ninf => ninf

/-- IEEE subtraction. -/
def sub (a b : F64) : F64 := add a (neg b)

/-- IEEE multiplication (0 * ∞ = NaN; NaN propagates). -/
def mul : F64 → F64 → F64
  | nan, _ => nan
  | _, nan => nan
  | fin a, fin b => fin (a * b)
  | fin a, inf => if 0 < a then inf else if a < 0 then ninf else nan
  | fin a, ninf => if 0 < a then ninf else if a < 0 then inf else nan
  | inf, fin b => if 0 < b then inf else if b < 0 then ninf else nan
  | ninf, fin b => if 0 < b then ninf else if b < 0 then inf else nan
  | inf, inf => inf
  | inf, ninf => ninf
  | ninf, inf => ninf
  | ninf, ninf => inf

/-- IEEE division (finite / 0 = signed ∞, 0 / 0 = NaN, ∞ / ∞ = NaN;
NaN propagates; the zero divisor is treated as +0). -/
def div : F64 → F64 → F64
  | nan, _ => nan
  | _, nan => nan
  | fin a, fin b =>
    if b = 0 then (if 0 < a then inf else if a < 0 then ninf else nan)
    else fin (a / b)
  | fin _, inf => fin 0
  | fin _, ninf => fin 0
  | inf, fin b => if 0 ≤ b then inf else ninf
  | ninf, fin b => if 0 ≤ b then ninf else inf
  | _, _ => nan

/-- IEEE strict less-than as a Bool: any comparison with NaN is false. -/
def blt : F64 → F64 → Bool
  | nan, _ => false
  | _, nan => false
  | fin a, fin b => a < b
  | fin _, inf => true
  | fin _, ninf => false
  | inf, fin _ => false
  | ninf, fin _ => true
  | inf, inf => false
  | ninf, ninf => false
  | inf, ninf => false
  | ninf, inf => true

/-- IEEE less-or-equal as a Bool: any comparison with NaN is false. -/
def ble : F64 → F64 → Bool
  | nan, _ => false
  | _, nan => false
  | fin a, fin b => a ≤ b
  | fin _, inf => true
  | fin _, ninf => false
  | inf, fin _ => false
  | ninf, fin _ => true
  | inf, inf => true
  | ninf, ninf => true
  | inf, ninf => false
  | ninf, inf => true

/-- IEEE greater-than as a Bool. -/
def bgt (a b : F64) : Bool := blt b a

/-- Model of f64 partial comparison: `none` exactly when an operand is
NaN. This is the comparator that the sort of the program unwraps. -/
def pcmp (a b : F64) : Option Ordering :=
  match a, b with
  | nan, _ => none
  | _, nan => none
  | _, _ => some (if blt a b then Ordering.lt else if a = b then Ordering.eq else Ordering.gt)

/-- The Rust `as i64` on an f64: saturating truncation, NaN to 0. -/
def toI64 : F64 → ℤ
  | fin q => f64toI64 q
  | inf => 2 ^ 63 - 1
  | ninf => -(2 ^ 63)
  | nan => 0

end F64

/-- Structure `CalculationResult` with its f64 cost kept in the IEEE-style model. -/
structure CalculationResultF where
  symbol : String
  new_number_of_shares : ℤ
  cost : F64
deriving DecidableEq

/-- Function `calc_value_of_stock` over the IEEE-style model. -/
def calc_value_of_stockF (stock : Stock) (usd_to_cad_exchange_rate : ℚ) : F64 :=
  if stock.is_usd then
    F64.mul (F64.mul (F64.fin stock.quote) (F64.fin (stock.number_of_shares : ℚ)))
      (F64.fin usd_to_cad_exchange_rate)
  else
    F64.mul (F64.fin stock.quote) (F64.fin (stock.number_of_shares : ℚ))

/-- Function `calc_portfolio_val` over the IEEE-style model (`Iterator::sum` is a
left fold starting from 0.0). -/
def calc_portfolio_valF (stocks : List Stock) (usd_to_cad_exchange_rate : ℚ) : F64 :=
  (stocks.map (fun stock => calc_value_of_stockF stock usd_to_cad_exchange_rate)).foldl
    F64.add (F64.fin 0)

/-- Function `determine_result_based_on_contrib_amount` over the IEEE-style model. -/
def determine_result_based_on_contrib_amountF (stock : Stock)
    (current_contribution_amount : F64) : CalculationResultF :=
  let shares_to_buy := F64.div current_contribution_amount (F64.fin stock.quote)
  { symbol := stock.symbol
    new_number_of_shares := shares_to_buy.toI64
    cost := F64.mul shares_to_buy (F64.fin stock.quote) }

/-- Function `calc_number_of_shares_to_buy` over the IEEE-style model. -/
def calc_number_of_shares_to_buyF (stock : Stock) (total_value : F64)
    (current_contribution_amount : F64) : Option CalculationResultF :=
  let target_allocation_as_decimal := F64.div (F64.fin stock.target_allocation) (F64.fin 100)
  let new_number_of_shares :=
    F64.div (F64.mul target_allocation_as_decimal total_value) (F64.fin stock.quote)
  let shares_to_buy := F64.sub new_number_of_shares (F64.fin (stock.number_of_shares : ℚ))
  let cost := F64.mul shares_to_buy (F64.fin stock.quote)
  if F64.bgt shares_to_buy (F64.fin 0) && F64.blt cost current_contribution_amount then
    some { symbol := stock.symbol
           new_number_of_shares := shares_to_buy.toI64
           cost := F64.mul shares_to_buy (F64.fin stock.quote) }
  else if F64.bgt shares_to_buy (F64.fin 0) then
    some (determine_result_based_on_contrib_amountF stock current_contribution_amount)
  else
    none

/-- One step of the stable insertion sort with the fallible comparator
`a.partial_cmp(b)`: `none` models the `unwrap()` panic at
src/main.rs line 90 when a NaN cost reaches the comparator. -/
def insertByCostF (r : CalculationResultF) :
    List CalculationResultF → Option (List CalculationResultF)
  | [] => some [r]
  | s :: rest =>
    match F64.pcmp r.cost s.cost with
    | none => none
    | some o =>
      if o = Ordering.lt then some (r :: s :: rest)
      else (insertByCostF r rest).map (fun rest' => s :: rest')

/-- Model of the sort at src/main.rs line 90 over the
IEEE-style model: `none` when some invoked comparison hits a NaN. -/
def sortByCostF (l : List CalculationResultF) : Option (List CalculationResultF) :=
  l.foldlM (fun acc r => insertByCostF r acc) []

/-- First reporting loop over the IEEE-style model. -/
def pass1F : List CalculationResultF → F64 → List CalculationResultF × F64
  | [], budget => ([], budget)
  | r :: rest, budget =>
    if F64.bgt r.cost budget then pass1F rest budget
    else
      let p := pass1F rest (F64.sub budget r.cost)
      (r :: p.1, p.2)

/-- Second reporting loop over the IEEE-style model. -/
def pass2F : List Stock → F64 → List CalculationResultF × F64
  | [], budget => ([], budget)
  | stock :: rest, budget =>
    if F64.ble budget (F64.fin 0) then pass2F rest budget
    else
      let r := determine_result_based_on_contrib_amountF stock budget
      let p := pass2F rest (F64.sub budget r.cost)
      (r :: p.1, p.2)

/-- Function `print_where_to_contribute` over the IEEE-style model: `none` models
the panic of the unwrap in the sort; otherwise the two reported sequences
and the final budget. -/
def print_where_to_contributeF (data : Data) :
    Option (List CalculationResultF × List CalculationResultF × F64) :=
  let total_value := calc_portfolio_valF data.stocks data.usd_to_cad_exchange_rate
  let collected := data.stocks.filterMap fun stock =>
    calc_number_of_shares_to_buyF stock total_value (F64.fin data.expected_contribution)
  (sortByCostF collected).map fun results =>
    let p1 := pass1F results (F64.fin data.expected_contribution)
    let p2 := pass2F data.stocks p1.2
    (p1.1, p2.1, p2.2)

/-- Model of f64 integer exponentiation (powi) over the IEEE-style model (x to the 0 is 1 for every x,
including NaN, per IEEE pown). -/
def powiF (x : F64) (n : ℤ) : F64 :=
  if n = 0 then F64.fin 1
  else
    match x with
    | F64.fin q => if q = 0 ∧ n < 0 then F64.inf else F64.fin (q ^ n)
    | F64.inf => if 0 < n then F64.inf else F64.fin 0
    | F64.ninf =>
      if 0 < n then (if n % 2 = 0 then F64.inf else F64.ninf) else F64.fin 0
    | F64.nan => F64.nan

/-- Function `print_how_close_to_retirement` over the IEEE-style model:
(target value, fully grown portfolio, percentage of target). -/
def print_how_close_to_retirementF (data : Data) : F64 × F64 × F64 :=
  let total_value := calc_portfolio_valF data.stocks data.usd_to_cad_exchange_rate
  let new_value := F64.add total_value (F64.fin data.expected_contribution)
  let years_to_pass := data.target_retirement_age - data.current_age
  let multiplier := F64.add (F64.fin 1) (F64.div (F64.fin data.target_growth_rate) (F64.fin 100))
  let target := F64.div (F64.fin data.annual_expenses) (F64.div (F64.fin 4) (F64.fin 100))
  let fully_grown := F64.mul new_value (powiF multiplier years_to_pass)
  (target, fully_grown, F64.mul (F64.div fully_grown target) (F64.fin 100))

/-- The second ("leftover cash") pass exactly as the specification
describes it, for comparison with the loop of the implementation: holdings in
original order; at a strictly positive remaining budget `b` emit
`b / quote` shares at cost `b / quote * quote` and deduct that cost;
at a nonpositive budget emit nothing for the holding. -/
def secondPassSpec : List Stock → ℚ → List CalculationResult
  | [], _ => []
  | s :: rest, b =>
    if 0 < b then
      { symbol := s.symbol
        new_number_of_shares := f64toI64 (b / s.quote)
        cost := b / s.quote * s.quote } :: secondPassSpec rest (b - b / s.quote * s.quote)
    else
      secondPassSpec rest b

/-- The retirement projection exactly as the specification states it,
for comparison with the implementation: `newValue = totalValue +
expectedContribution`, `futureValue = newValue *
(1 + targetGrowthRate/100) ^ (targetRetirementAge - currentAge)`,
`targetPortfolioValue = annualExpenses / (4/100)`, and
`percentOfTarget = futureValue / targetPortfolioValue * 100`. -/
def retirementSpec (d : Data) : RetirementOutput :=
  let totalValue := calc_portfolio_val d.stocks d.usd_to_cad_exchange_rate
  let newValue := totalValue + d.expected_contribution
  let yearsToGrow := d.target_retirement_age - d.current_age
  let growthMultiplier := 1 + d.target_growth_rate / 100
  let futureValue := newValue * growthMultiplier ^ yearsToGrow
  let targetPortfolioValue := d.annual_expenses / (4 / 100)
  { new_value := newValue
    years_to_pass := yearsToGrow
    target_retirement_portfolio_value := targetPortfolioValue
    fully_grown_portfolio := futureValue
    percentage_of_retirement_value := futureValue / targetPortfolioValue * 100 }

/-- A snapshot with an empty holdings list and a negative expected
contribution (the input format accepts any number; the program validates
no semantic ranges). -/
def c1CexData : Data :=
  { stocks := []
    annual_expenses := 0
    target_retirement_age := 0
    current_age := 0
    target_growth_rate := 0
    usd_to_cad_exchange_rate := 1
    expected_contribution := -1 }

/-- A small well-behaved snapshot with a nonnegative contribution. -/
def c1ExData : Data :=
  { stocks := [⟨"A", 1, 0, 0, false⟩]
    annual_expenses := 0
    target_retirement_age := 0
    current_age := 0
    target_growth_rate := 0
    usd_to_cad_exchange_rate := 1
    expected_contribution := 10 }

/-- A snapshot containing a holding with quote 0 ("A") next to a holding
that yields a qualifying first-pass recommendation ("B", funded by the
value of "C"): the zero quote makes the recommendation cost of "A" NaN,
so the sort comparator is invoked on a NaN cost. -/
def c2PanicData : Data :=
  { stocks := [⟨"A", 0, 0, 50, false⟩, ⟨"B", 1, 0, 50, false⟩, ⟨"C", 1, 100, 0, false⟩]
    annual_expenses := 0
    target_retirement_age := 0
    current_age := 0
    target_growth_rate := 0
    usd_to_cad_exchange_rate := 1
    expected_contribution := 10 }

/-- A snapshot with every quote nonzero. -/
def c2ExData : Data :=
  { stocks := [⟨"A", 1, 0, 0, false⟩, ⟨"B", 2, 3, 100, false⟩]
    annual_expenses := 0
    target_retirement_age := 0
    current_age := 0
    target_growth_rate := 0
    usd_to_cad_exchange_rate := 1
    expected_contribution := 10 }

/-- A snapshot whose pre-contribution total value is 0 (all share counts
zero). -/
def c6ExData : Data :=
  { stocks := [⟨"A", 5, 0, 100, false⟩, ⟨"B", 2, 0, 50, true⟩]
    annual_expenses := 0
    target_retirement_age := 0
    current_age := 0
    target_growth_rate := 0
    usd_to_cad_exchange_rate := 1
    expected_contribution := 1000 }

/-- A snapshot with zero annual expenses and a positive projected value. -/
def c7ExData : Data :=
  { stocks := []
    annual_expenses := 0
    target_retirement_age := 40
    current_age := 40
    target_growth_rate := 0
    usd_to_cad_exchange_rate := 1
    expected_contribution := 100 }

/-- A snapshot on which the first pass reports nothing, leaving the whole
positive contribution for the second pass. -/
def c10ExData : Data :=
  { stocks := [⟨"A", 1, 0, 0, false⟩, ⟨"B", 4, 0, 0, false⟩]
    annual_expenses := 0
    target_retirement_age := 0
    current_age := 0
    target_growth_rate := 0
    usd_to_cad_exchange_rate := 1
    expected_contribution := 10 }

lemma costSum_nil : costSum [] = 0 := rfl

lemma costSum_cons (r : CalculationResult) (l : List CalculationResult) :
    costSum (r :: l) = r.cost + costSum l := by
  simp [costSum]

/-- The first reporting loop deducts exactly the costs it reports:
the remaining budget is the initial budget minus the reported total. -/
lemma pass1_budget_eq (l : List CalculationResult) (b : ℚ) :
    (pass1 l b).2 = b - costSum (pass1 l b).1 := by
  induction l generalizing b with
  | nil => simp [pass1, costSum_nil]
  | cons r rest ih =>
    by_cases h : r.cost > b
    · simp only [pass1, if_pos h]
      exact ih b
    · simp only [pass1, if_neg h, costSum_cons]
      have := ih (b - r.cost)
      linarith

/-- A recommendation is reported only when its cost is at most the
remaining budget, so a nonnegative budget stays nonnegative. -/
lemma pass1_budget_nonneg (l : List CalculationResult) (b : ℚ) (hb : 0 ≤ b) :
    0 ≤ (pass1 l b).2 := by
  induction l generalizing b with
  | nil => simpa [pass1] using hb
  | cons r rest ih =>
    by_cases h : r.cost > b
    · simpa only [pass1, if_pos h] using ih b hb
    · have hr : r.cost ≤ b := not_lt.mp h
      have : 0 ≤ b - r.cost := by linarith
      simpa only [pass1, if_neg h] using ih (b - r.cost) this

/-- C1 (amended): the budget left after the sorted first pass equals the
initial `expected_contribution` minus the sum of the reported costs, and
provided the initial `expected_contribution` is nonnegative, the
remaining budget never becomes negative and the reported first-pass costs
sum to at most the initial `expected_contribution`. (As literally stated
the claim fails for a snapshot with a negative `expected_contribution`,
which the program does not rule out; see the counterexample.) -/
theorem c1_first_pass_budget_bound (d : Data) :
    (print_where_to_contribute d).budget_after_first =
      d.expected_contribution - costSum (print_where_to_contribute d).first_pass ∧
    (0 ≤ d.expected_contribution →
      0 ≤ (print_where_to_contribute d).budget_after_first ∧
      costSum (print_where_to_contribute d).first_pass ≤ d.expected_contribution) := by
  have heq := pass1_budget_eq (firstPassInput d) d.expected_contribution
  constructor
  · simpa [print_where_to_contribute] using heq
  · intro h
    have hnn := pass1_budget_nonneg (firstPassInput d) d.expected_contribution h
    refine ⟨by simpa [print_where_to_contribute] using hnn, ?_⟩
    simp only [print_where_to_contribute]
    linarith

/-- C1 counterexample: on the snapshot with `expected_contribution = -1`
and no holdings, the first pass reports nothing, and the sum of reported
costs (0) exceeds the initial `expected_contribution`; the "remaining
budget" is negative throughout. -/
theorem c1_counterexample :
    ¬ (costSum (print_where_to_contribute c1CexData).first_pass ≤
        c1CexData.expected_contribution) ∧
    (print_where_to_contribute c1CexData).budget_after_first < 0 := by
  norm_num [c1CexData, print_where_to_contribute, firstPassInput, calc_portfolio_val,
    sortByCost, pass1, pass2, costSum]

/-- Witness for `c1_first_pass_budget_bound` at a concrete snapshot. -/
theorem c1_witness :
    0 ≤ (print_where_to_contribute c1ExData).budget_after_first ∧
    costSum (print_where_to_contribute c1ExData).first_pass ≤
      c1ExData.expected_contribution :=
  (c1_first_pass_budget_bound c1ExData).2 (by norm_num [c1ExData])

/-- Once the budget is nonpositive, every remaining iteration of the
second loop `continue`s, so nothing further is reported. -/
lemma pass2_nonpos (stocks : List Stock) (b : ℚ) (hb : b ≤ 0) :
    (pass2 stocks b).1 = [] := by
  induction stocks with
  | nil => simp [pass2]
  | cons s rest ih => simp only [pass2, if_pos hb]; exact ih

/-- The second loop of the implementation computes exactly the list the
specification describes. -/
lemma pass2_eq_spec (stocks : List Stock) (b : ℚ) :
    (pass2 stocks b).1 = secondPassSpec stocks b := by
  induction stocks generalizing b with
  | nil => simp [pass2, secondPassSpec]
  | cons s rest ih =>
    by_cases hb : b ≤ 0
    · rw [secondPassSpec, if_neg (not_lt.mpr hb)]
      simp only [pass2, if_pos hb]
      exact ih b
    · rw [secondPassSpec, if_pos (not_le.mp hb)]
      simp only [pass2, if_neg hb, determine_result_based_on_contrib_amount]
      exact congrArg _ (ih _)

/-- C3: for every snapshot the second pass iterates the holdings in
snapshot order and behaves as the specification describes — at a strictly
positive remaining budget it emits exactly `remainingBudget / quote`
shares at cost `(remainingBudget / quote) * quote` (ignoring the target
allocation) and deducts that cost, and once the budget is zero or below
no further second-pass recommendation is reported. -/
theorem c3_second_pass_spec :
    (∀ d : Data,
      (print_where_to_contribute d).second_pass =
        secondPassSpec d.stocks (print_where_to_contribute d).budget_after_first) ∧
    (∀ (stocks : List Stock) (b : ℚ), b ≤ 0 → (pass2 stocks b).1 = []) := by
  refine ⟨fun d => ?_, pass2_nonpos⟩
  simp only [print_where_to_contribute]
  exact pass2_eq_spec d.stocks _

/-- Witness for `c3_second_pass_spec` at concrete inputs. -/
theorem c3_witness :
    (pass2 [⟨"A", 1, 0, 0, false⟩] (-1)).1 = [] :=
  c3_second_pass_spec.2 [⟨"A", 1, 0, 0, false⟩] (-1) (by norm_num)

/-- Elements of an insertion are the inserted element or elements of the
original list. -/
lemma mem_insertByCost {r x : CalculationResult} {l : List CalculationResult}
    (h : x ∈ insertByCost r l) : x = r ∨ x ∈ l := by
  induction l with
  | nil => simpa [insertByCost] using h
  | cons s rest ih =>
    by_cases hc : r.cost < s.cost
    · rw [insertByCost, if_pos hc] at h
      rcases List.mem_cons.mp h with rfl | h
      · exact Or.inl rfl
      · exact Or.inr h
    · rw [insertByCost, if_neg hc] at h
      rcases List.mem_cons.mp h with rfl | h
      · exact Or.inr (List.mem_cons_self x rest)
      · rcases ih h with h | h
        · exact Or.inl h
        · exact Or.inr (List.mem_cons_of_mem s h)

/-- Inserting into a cost-sorted list keeps it cost-sorted. -/
lemma insertByCost_sorted {r : CalculationResult} {l : List CalculationResult}
    (h : l.Pairwise (fun a b => a.cost ≤ b.cost)) :
    (insertByCost r l).Pairwise (fun a b => a.cost ≤ b.cost) := by
  induction l with
  | nil => simp [insertByCost]
  | cons s rest ih =>
    rcases List.pairwise_cons.mp h with ⟨hs, hrest⟩
    by_cases hc : r.cost < s.cost
    · rw [insertByCost, if_pos hc]
      refine List.pairwise_cons.mpr ⟨?_, h⟩
      intro x hx
      rcases List.mem_cons.mp hx with rfl | hx
      · exact le_of_lt hc
      · exact le_trans (le_of_lt hc) (hs x hx)
    · rw [insertByCost, if_neg hc]
      refine List.pairwise_cons.mpr ⟨?_, ih hrest⟩
      intro x hx
      rcases mem_insertByCost hx with rfl | hx
      · exact not_lt.mp hc
      · exact hs x hx

/-- The insertion sort produces a cost-sorted list. -/
lemma sortByCost_sorted (l : List CalculationResult) :
    (sortByCost l).Pairwise (fun a b => a.cost ≤ b.cost) := by
  suffices h : ∀ acc : List CalculationResult,
      acc.Pairwise (fun a b => a.cost ≤ b.cost) →
      (l.foldl (fun acc r => insertByCost r acc) acc).Pairwise
        (fun a b => a.cost ≤ b.cost) from h [] (by simp)
  induction l with
  | nil => exact fun acc hacc => hacc
  | cons r rest ih =>
    intro acc hacc
    exact ih (insertByCost r acc) (insertByCost_sorted hacc)

/-- The reported first-pass list is a sublist of the input list of the loop:
a reported recommendation is kept in place, an unaffordable one dropped. -/
lemma pass1_sublist (l : List CalculationResult) (b : ℚ) :
    (pass1 l b).1.Sublist l := by
  induction l generalizing b with
  | nil => simp [pass1]
  | cons r rest ih =>
    by_cases h : r.cost > b
    · simp only [pass1, if_pos h]
      exact (ih b).cons r
    · simp only [pass1, if_neg h]
      exact (ih (b - r.cost)).cons₂ r

/-- C4: for every snapshot, the first-pass recommendations actually
reported appear in non-decreasing cost order: the collected
recommendations are sorted ascending by cost and the budget-consumption
filter drops elements without reordering. -/
theorem c4_first_pass_sorted (d : Data) :
    (print_where_to_contribute d).first_pass.Pairwise (fun a b => a.cost ≤ b.cost) := by
  simp only [print_where_to_contribute]
  exact (sortByCost_sorted _).sublist
    (pass1_sublist (firstPassInput d) d.expected_contribution)

/-- C5: for a holding whose desired share delta
`(targetAllocation/100 * totalValue)/quote - currentShares` is positive
but whose full-delta cost does not fit the tracked budget (is not
strictly below it), the first-pass recommendation is computed from the
affordable quantity: `remainingBudget / quote` shares at cost
`(remainingBudget / quote) * quote`, rather than the holding being
skipped. -/
theorem c5_affordable_fallback (stock : Stock) (total_value budget : ℚ)
    (hpos : 0 < stock.target_allocation / 100 * total_value / stock.quote -
      (stock.number_of_shares : ℚ))
    (hfit : budget ≤ (stock.target_allocation / 100 * total_value / stock.quote -
      (stock.number_of_shares : ℚ)) * stock.quote) :
    calc_number_of_shares_to_buy stock total_value budget =
      some { symbol := stock.symbol
             new_number_of_shares := f64toI64 (budget / stock.quote)
             cost := budget / stock.quote * stock.quote } := by
  unfold calc_number_of_shares_to_buy
  rw [if_neg (fun hand => absurd hand.2 (not_lt.mpr hfit)), if_pos hpos]
  rfl

/-- Witness for `c5_affordable_fallback` at a concrete holding. -/
theorem c5_witness :
    calc_number_of_shares_to_buy ⟨"A", 1, 0, 100, false⟩ 100 10 =
      some { symbol := "A"
             new_number_of_shares := f64toI64 ((10 : ℚ) / 1)
             cost := (10 : ℚ) / 1 * 1 } :=
  c5_affordable_fallback ⟨"A", 1, 0, 100, false⟩ 100 10 (by norm_num) (by norm_num)

/-- A holding whose computed share delta is nonpositive contributes no
recommendation: both guarded branches require a positive delta. -/
lemma calc_none_of_nonpos (stock : Stock) (total_value budget : ℚ)
    (h : stock.target_allocation / 100 * total_value / stock.quote -
      (stock.number_of_shares : ℚ) ≤ 0) :
    calc_number_of_shares_to_buy stock total_value budget = none := by
  unfold calc_number_of_shares_to_buy
  rw [if_neg (fun hand => absurd hand.1 (not_lt.mpr h)),
    if_neg (not_lt.mpr h)]

/-- C6: a holding whose desired share delta is nonpositive receives no
first-pass recommendation; in particular, when the pre-contribution total
portfolio value is 0 and share counts are nonnegative (as the data model
requires), the first pass reports nothing for any holding — the
rebalancing target is computed from the total value excluding the new
contribution. -/
theorem c6_no_recommendation_at_or_above_target :
    (∀ (stock : Stock) (total_value budget : ℚ),
      stock.target_allocation / 100 * total_value / stock.quote -
          (stock.number_of_shares : ℚ) ≤ 0 →
      calc_number_of_shares_to_buy stock total_value budget = none) ∧
    (∀ d : Data, (∀ s ∈ d.stocks, 0 ≤ s.number_of_shares) →
      calc_portfolio_val d.stocks d.usd_to_cad_exchange_rate = 0 →
      (print_where_to_contribute d).first_pass = []) := by
  refine ⟨calc_none_of_nonpos, fun d hshares htv => ?_⟩
  have hmap : (d.stocks.filterMap fun stock =>
      calc_number_of_shares_to_buy stock
        (calc_portfolio_val d.stocks d.usd_to_cad_exchange_rate)
        d.expected_contribution) = [] := by
    rw [List.filterMap_eq_nil_iff]
    intro s hs
    apply calc_none_of_nonpos
    rw [htv]
    have : (0 : ℚ) ≤ (s.number_of_shares : ℚ) := by
      exact_mod_cast hshares s hs
    simp only [mul_zero, zero_div]
    linarith
  simp only [print_where_to_contribute, firstPassInput, hmap]
  rfl

/-- Witness for `c6_no_recommendation_at_or_above_target` on a concrete
zero-value snapshot. -/
theorem c6_witness : (print_where_to_contribute c6ExData).first_pass = [] :=
  c6_no_recommendation_at_or_above_target.2 c6ExData
    (by intro s hs; fin_cases hs <;> norm_num [c6ExData])
    (by norm_num [c6ExData, calc_portfolio_val, calc_value_of_stock])

/-- C9: every emitted recommendation reports as its share count the
fractional share quantity cast with `as i64` — truncation toward zero —
while its cost is the untruncated fractional quantity times the quote;
on the concrete holding with quote 3 and contribution 2 the reported cost
(2) differs from reported shares times quote (0 * 3), and the
recommendation reports 0 shares at a positive cost. -/
theorem c9_truncated_shares_untruncated_cost :
    (∀ (stock : Stock) (c : ℚ),
      determine_result_based_on_contrib_amount stock c =
        { symbol := stock.symbol
          new_number_of_shares := f64toI64 (c / stock.quote)
          cost := c / stock.quote * stock.quote }) ∧
    (∀ (stock : Stock) (total_value c : ℚ) (r : CalculationResult),
      calc_number_of_shares_to_buy stock total_value c = some r →
      ∃ frac : ℚ, r.new_number_of_shares = f64toI64 frac ∧
        r.cost = frac * stock.quote) ∧
    ((determine_result_based_on_contrib_amount ⟨"A", 3, 0, 0, false⟩ 2).cost ≠
      ((determine_result_based_on_contrib_amount ⟨"A", 3, 0, 0, false⟩
          2).new_number_of_shares : ℚ) * (3 : ℚ)) ∧
    ((determine_result_based_on_contrib_amount ⟨"A", 3, 0, 0, false⟩
        2).new_number_of_shares = 0 ∧
      0 < (determine_result_based_on_contrib_amount ⟨"A", 3, 0, 0, false⟩ 2).cost) := by
  refine ⟨fun stock c => rfl, fun stock total_value c r hr => ?_, ?_, ?_⟩
  · simp only [calc_number_of_shares_to_buy] at hr
    split_ifs at hr
    · rcases Option.some_inj.mp hr with rfl
      exact ⟨stock.target_allocation / 100 * total_value / stock.quote -
        (stock.number_of_shares : ℚ), rfl, rfl⟩
    · rcases Option.some_inj.mp hr with rfl
      exact ⟨c / stock.quote, rfl, rfl⟩
  · norm_num [determine_result_based_on_contrib_amount, f64toI64, ratTrunc]
  · norm_num [determine_result_based_on_contrib_amount, f64toI64, ratTrunc]

/-- Witness for `c9_truncated_shares_untruncated_cost` at a concrete
emitted recommendation. -/
theorem c9_witness :
    ∃ frac : ℚ,
      ({ symbol := "B", new_number_of_shares := 10, cost := 10 } :
          CalculationResult).new_number_of_shares = f64toI64 frac ∧
      ({ symbol := "B", new_number_of_shares := 10, cost := 10 } :
          CalculationResult).cost = frac * (⟨"B", 1, 0, 100, false⟩ : Stock).quote :=
  c9_truncated_shares_untruncated_cost.2.1 ⟨"B", 1, 0, 100, false⟩ 100 10
    { symbol := "B", new_number_of_shares := 10, cost := 10 }
    (by norm_num [calc_number_of_shares_to_buy,
      determine_result_based_on_contrib_amount, f64toI64, ratTrunc])

/-- C7: the retirement projector computes exactly the formulas of the
specification (`newValue = totalValue + expectedContribution`,
`futureValue = newValue * (1 + targetGrowthRate/100) ^
(targetRetirementAge - currentAge)`, `targetPortfolioValue =
annualExpenses / (4/100)`, `percentOfTarget = futureValue /
targetPortfolioValue * 100`); with `annualExpenses = 0` the target value
is 0, and in the IEEE-style model the division by that zero target makes
the percentage infinite on a concrete such snapshot — no error is
raised. -/
theorem c7_retirement_projection :
    (∀ d : Data, print_how_close_to_retirement d = retirementSpec d) ∧
    (∀ d : Data, d.annual_expenses = 0 →
      (print_how_close_to_retirement d).target_retirement_portfolio_value = 0) ∧
    (print_how_close_to_retirementF c7ExData).2.2 = F64.inf := by
  refine ⟨fun d => rfl, fun d h => ?_, ?_⟩
  · simp [print_how_close_to_retirement, h]
  · norm_num [c7ExData, print_how_close_to_retirementF, calc_portfolio_valF, powiF,
      F64.add, F64.mul, F64.div]

/-- Witness for `c7_retirement_projection` at the zero-expenses
snapshot. -/
theorem c7_witness :
    (print_how_close_to_retirement c7ExData).target_retirement_portfolio_value = 0 :=
  c7_retirement_projection.2.1 c7ExData rfl

/-- C8: the total portfolio value is invariant under permutation of the
holdings (the exact arithmetic of the embedding renders the
"within floating-point tolerance"), and the empty holdings list has total
value 0. -/
theorem c8_total_value_permutation :
    (∀ (l l' : List Stock) (fx : ℚ), l.Perm l' →
      calc_portfolio_val l fx = calc_portfolio_val l' fx) ∧
    (∀ fx : ℚ, calc_portfolio_val [] fx = 0) := by
  refine ⟨fun l l' fx h => ?_, fun fx => rfl⟩
  unfold calc_portfolio_val
  exact (h.map fun stock => calc_value_of_stock stock fx).sum_eq

/-- Witness for `c8_total_value_permutation` on a concrete two-element
permutation. -/
theorem c8_witness :
    calc_portfolio_val [⟨"A", 2, 3, 50, false⟩, ⟨"B", 7, 1, 50, true⟩] 4 =
      calc_portfolio_val [⟨"B", 7, 1, 50, true⟩, ⟨"A", 2, 3, 50, false⟩] 4 :=
  c8_total_value_permutation.1 _ _ 4
    (List.Perm.swap (⟨"B", 7, 1, 50, true⟩ : Stock) (⟨"A", 2, 3, 50, false⟩ : Stock) [])

/-- C10: under exact arithmetic, whenever the budget remaining after the
first pass is strictly positive, every quote is nonzero and the holdings
list is nonempty, the second pass reports exactly one recommendation —
for the first holding — whose cost `(remainingBudget / quote) * quote`
equals the entire remaining budget, so every later holding sees budget
exactly 0 and nothing further is reported. -/
theorem c10_second_pass_singleton (d : Data) (s : Stock) (rest : List Stock)
    (hstocks : d.stocks = s :: rest)
    (hb : 0 < (print_where_to_contribute d).budget_after_first)
    (hq : ∀ t ∈ d.stocks, t.quote ≠ 0) :
    (print_where_to_contribute d).second_pass =
      [determine_result_based_on_contrib_amount s
        (print_where_to_contribute d).budget_after_first] ∧
    (determine_result_based_on_contrib_amount s
        (print_where_to_contribute d).budget_after_first).cost =
      (print_where_to_contribute d).budget_after_first := by
  have hqs : s.quote ≠ 0 := hq s (hstocks ▸ List.mem_cons_self s rest)
  set b := (print_where_to_contribute d).budget_after_first with hbdef
  have hcost : (determine_result_based_on_contrib_amount s b).cost = b := by
    simp only [determine_result_based_on_contrib_amount]
    exact div_mul_cancel₀ b hqs
  refine ⟨?_, hcost⟩
  have hpass : (print_where_to_contribute d).second_pass = (pass2 d.stocks b).1 := by
    simp [print_where_to_contribute, hbdef]
  rw [hpass, hstocks]
  simp only [pass2, if_neg (not_le.mpr hb), hcost]
  rw [show b - b = 0 from sub_self b, pass2_nonpos rest 0 le_rfl]

/-- Witness for `c10_second_pass_singleton` at a concrete snapshot whose
first pass reports nothing. -/
theorem c10_witness :
    (print_where_to_contribute c10ExData).second_pass =
      [determine_result_based_on_contrib_amount ⟨"A", 1, 0, 0, false⟩
        (print_where_to_contribute c10ExData).budget_after_first] ∧
    (determine_result_based_on_contrib_amount ⟨"A", 1, 0, 0, false⟩
        (print_where_to_contribute c10ExData).budget_after_first).cost =
      (print_where_to_contribute c10ExData).budget_after_first :=
  c10_second_pass_singleton c10ExData ⟨"A", 1, 0, 0, false⟩ [⟨"B", 4, 0, 0, false⟩]
    rfl
    (by norm_num [c10ExData, print_where_to_contribute, firstPassInput,
      calc_portfolio_val, calc_value_of_stock, calc_number_of_shares_to_buy,
      sortByCost, pass1])
    (by intro t ht; fin_cases ht <;> norm_num [c10ExData])

/-- The IEEE-style value of a stock is always finite: products of finite
inputs stay finite. -/
lemma valF_fin (stock : Stock) (fx : ℚ) :
    ∃ q, calc_value_of_stockF stock fx = F64.fin q := by
  cases hs : stock.is_usd <;>
    simp only [calc_value_of_stockF, hs, Bool.false_eq_true, if_false, if_true, F64.mul] <;>
    exact ⟨_, rfl⟩

/-- Folding IEEE addition over finite values from a finite start stays
finite. -/
lemma foldl_addF_fin (l : List F64) (h : ∀ x ∈ l, ∃ q, x = F64.fin q) :
    ∀ q0 : ℚ, ∃ q, l.foldl F64.add (F64.fin q0) = F64.fin q := by
  induction l with
  | nil => exact fun q0 => ⟨q0, rfl⟩
  | cons x xs ih =>
    intro q0
    obtain ⟨a, rfl⟩ := h x (List.mem_cons_self x xs)
    simpa [F64.add] using
      ih (fun y hy => h y (List.mem_cons_of_mem _ hy)) (q0 + a)

/-- The IEEE-style total portfolio value is always finite. -/
lemma portfolio_valF_fin (stocks : List Stock) (fx : ℚ) :
    ∃ q, calc_portfolio_valF stocks fx = F64.fin q := by
  unfold calc_portfolio_valF
  refine foldl_addF_fin _ ?_ 0
  intro x hx
  obtain ⟨s, _, rfl⟩ := List.mem_map.mp hx
  exact valF_fin s fx

/-- With a nonzero quote, the affordable-only recommendation has a finite
cost. -/
lemma determineF_cost_fin (stock : Stock) (c : ℚ) (hq : stock.quote ≠ 0) :
    ∃ q, (determine_result_based_on_contrib_amountF stock (F64.fin c)).cost = F64.fin q := by
  simp only [determine_result_based_on_contrib_amountF, F64.div, if_neg hq, F64.mul]
  exact ⟨_, rfl⟩

/-- With a nonzero quote and finite inputs, every recommendation
collected for the first pass has a finite cost. -/
lemma calcF_cost_fin (stock : Stock) (tv c : ℚ) (hq : stock.quote ≠ 0)
    (r : CalculationResultF)
    (hr : calc_number_of_shares_to_buyF stock (F64.fin tv) (F64.fin c) = some r) :
    ∃ q, r.cost = F64.fin q := by
  simp only [calc_number_of_shares_to_buyF] at hr
  split_ifs at hr
  · rcases Option.some_inj.mp hr with rfl
    norm_num [F64.div, F64.mul, F64.sub, F64.neg, F64.add, hq]
  · rcases Option.some_inj.mp hr with rfl
    exact determineF_cost_fin stock c hq

/-- Inserting an element of finite cost into a list of finite costs never
hits the NaN comparator case, and preserves finiteness of all costs. -/
lemma insertF_some (r : CalculationResultF) (hr : ∃ q, r.cost = F64.fin q) :
    ∀ l : List CalculationResultF, (∀ x ∈ l, ∃ q, x.cost = F64.fin q) →
      ∃ l', insertByCostF r l = some l' ∧ ∀ x ∈ l', ∃ q, x.cost = F64.fin q := by
  intro l
  induction l with
  | nil =>
    intro _
    refine ⟨[r], rfl, ?_⟩
    intro x hx
    rw [List.mem_singleton] at hx
    subst hx
    exact hr
  | cons s rest ih =>
    intro hl
    obtain ⟨a, ha⟩ := hr
    obtain ⟨b, hb⟩ := hl s (List.mem_cons_self s rest)
    have hcmp : F64.pcmp r.cost s.cost =
        some (if F64.blt r.cost s.cost then Ordering.lt
          else if r.cost = s.cost then Ordering.eq else Ordering.gt) := by
      rw [ha, hb]; rfl
    by_cases hlt : (if F64.blt r.cost s.cost then Ordering.lt
        else if r.cost = s.cost then Ordering.eq else Ordering.gt) = Ordering.lt
    · refine ⟨r :: s :: rest, ?_, ?_⟩
      · simp only [insertByCostF, hcmp, if_pos hlt]
      · intro x hx
        rcases List.mem_cons.mp hx with rfl | hx
        · exact ⟨a, ha⟩
        rcases List.mem_cons.mp hx with rfl | hx
        · exact ⟨b, hb⟩
        · exact hl x (List.mem_cons_of_mem s hx)
    · obtain ⟨rest', hrest', hrestP⟩ := ih fun x hx => hl x (List.mem_cons_of_mem s hx)
      refine ⟨s :: rest', ?_, ?_⟩
      · simp only [insertByCostF, hcmp, if_neg hlt, hrest', Option.map_some']
      · intro x hx
        rcases List.mem_cons.mp hx with rfl | hx
        · exact ⟨b, hb⟩
        · exact hrestP x hx

/-- The monadic insertion sort succeeds on any list whose costs are all
finite (no comparison returns `none`). -/
lemma foldlM_insertF_some :
    ∀ l acc : List CalculationResultF,
      (∀ x ∈ acc, ∃ q, x.cost = F64.fin q) →
      (∀ x ∈ l, ∃ q, x.cost = F64.fin q) →
      ∃ l', List.foldlM (fun acc r => insertByCostF r acc) acc l = some l' := by
  intro l
  induction l with
  | nil => exact fun acc _ _ => ⟨acc, rfl⟩
  | cons r rest ih =>
    intro acc hacc hl
    obtain ⟨acc', hacc', haccP⟩ :=
      insertF_some r (hl r (List.mem_cons_self r rest)) acc hacc
    obtain ⟨l', hl'⟩ := ih acc' haccP fun x hx => hl x (List.mem_cons_of_mem r hx)
    exact ⟨l', by simp only [List.foldlM_cons, hacc', Option.bind_some]; exact hl'⟩

/-- C2 (amended): after a successful load the computation is total
except at the first-pass sort: provided the quote of every holding is nonzero
all recommendation costs are finite rationals, so the comparator of
`sort_by(|a, b| a.partial_cmp(b).unwrap())` never receives a NaN and the
rebalancer produces its output. (The claim as literally stated — totality
for every snapshot, including one with a holding of quote 0 — fails: see
the counterexample, where a NaN cost reaches the comparator and the
`unwrap()` panics.) -/
theorem c2_total_when_quotes_nonzero (d : Data)
    (hq : ∀ s ∈ d.stocks, s.quote ≠ 0) :
    (print_where_to_contributeF d).isSome = true := by
  obtain ⟨tv, htv⟩ := portfolio_valF_fin d.stocks d.usd_to_cad_exchange_rate
  have hcol : ∀ x ∈ (d.stocks.filterMap fun stock =>
      calc_number_of_shares_to_buyF stock
        (calc_portfolio_valF d.stocks d.usd_to_cad_exchange_rate)
        (F64.fin d.expected_contribution)), ∃ q, x.cost = F64.fin q := by
    intro x hx
    obtain ⟨s, hs, hfx⟩ := List.mem_filterMap.mp hx
    rw [htv] at hfx
    exact calcF_cost_fin s tv d.expected_contribution (hq s hs) x hfx
  obtain ⟨l', hl'⟩ := foldlM_insertF_some _ [] (by intro x hx; cases hx) hcol
  simp only [print_where_to_contributeF, sortByCostF, hl', Option.map_some', Option.isSome_some]

/-- C2 counterexample: on the snapshot with a quote-0 holding, the
IEEE-style model of `print_where_to_contribute` reaches the sort with a
NaN cost, the comparator returns `none`, and the modelled `unwrap()`
panics — the computation is not total over all parsed snapshots. -/
theorem c2_counterexample : print_where_to_contributeF c2PanicData = none := by
  norm_num [c2PanicData, print_where_to_contributeF, calc_portfolio_valF,
    calc_value_of_stockF, calc_number_of_shares_to_buyF,
    determine_result_based_on_contrib_amountF, sortByCostF, insertByCostF,
    F64.pcmp, F64.add, F64.mul, F64.div, F64.sub, F64.neg, F64.blt, F64.bgt,
    F64.toI64, f64toI64, ratTrunc, List.foldlM, List.filterMap]

/-- Witness for `c2_total_when_quotes_nonzero` at a concrete snapshot
with nonzero quotes. -/
theorem c2_witness : (print_where_to_contributeF c2ExData).isSome = true :=
  c2_total_when_quotes_nonzero c2ExData
    (by intro s hs; fin_cases hs <;> norm_num [c2ExData])

end RPM
